import Mathlib

/-!
# Verification of the MallocChecker heap-lifecycle core

A shallow embedding of the per-path state tables and state-transforming
operations of `clang/lib/StaticAnalyzer/Checkers/MallocChecker.cpp`
(allocation modeler, deallocation modeler, realloc modeler, dead-symbol
cleanup, assumption hook, pointer-escape handler), together with theorems
settling the specification claims about them.

Engine-provided objects (symbols, statements, constraint answers, AST
facts such as the declared return type of a call) are modeled as explicit
parameters; the checker-owned program-state tables are modeled as
association lists keyed by symbol identity, mirroring the persistent maps
registered with `REGISTER_MAP_WITH_PROGRAMSTATE`.
-/

namespace MallocChecker

/-- Symbols (`SymbolRef`) are identified by their engine identity. -/
abbrev Sym := Nat

/-- Statements (`const Stmt *`) are identified by pointer identity. -/
abbrev Stmt := Nat

/-- `enum AllocationFamily` from MallocChecker.cpp. -/
inductive AllocationFamily
  | AF_None
  | AF_Malloc
  | AF_CXXNew
  | AF_CXXNewArray
  | AF_IfNameIndex
  | AF_Alloca
  | AF_InnerBuffer
deriving DecidableEq, Repr

/-- `RefState::Kind` from MallocChecker.cpp. -/
inductive RefKind
  | Allocated
  | AllocatedOfSizeZero
  | Released
  | Relinquished
  | Escaped
deriving DecidableEq, Repr

/-- `class RefState`: the lifecycle record of a tracked symbol,
`(origin statement, kind, allocation family)`. -/
structure RefState where
  S : Stmt
  K : RefKind
  Family : AllocationFamily
deriving DecidableEq, Repr

/-- `enum OwnershipAfterReallocKind` from MallocChecker.cpp. -/
inductive OwnershipAfterReallocKind
  | OAR_ToBeFreedAfterFailure
  | OAR_FreeOnFailure
  | OAR_DoNotTrackAfterFailure
deriving DecidableEq, Repr

/-- `struct ReallocPair`: data attached to the `toPtr` of a realloc. -/
structure ReallocPair where
  ReallocatedSym : Sym
  Kind : OwnershipAfterReallocKind
deriving DecidableEq, Repr

/-- The initialization value passed to the allocation modeler
(`UndefinedVal`, a zero value, or `UnknownVal`). -/
inductive InitVal
  | undef
  | zero
  | unknown
deriving DecidableEq, Repr

/-- Diagnostics the checker can raise while modeling an operation. -/
inductive Report
  | FreeAlloca
  | DoubleFree (isReleased : Bool)
  | MismatchedDealloc
  | OffsetFree
  | FunctionPointerFree
  | BadFree
  | Leak (sym : Sym)
deriving DecidableEq, Repr

/-- Externally visible engine interactions performed while modeling. -/
inductive Event
  | report (r : Report)
  | symbolDependency (primary dependent : Sym)
deriving DecidableEq, Repr

/-- The result of `MemRegion::getAsOffset()` on the freed region:
invalid, symbolic, or a known concrete byte offset. -/
inductive RegionOffsetInfo
  | invalid
  | symbolic
  | concrete (n : Int)
deriving DecidableEq, Repr

/-- The per-path program state owned by the checker: the four registered
tables, plus the engine's constraint knowledge that the checker queries
(`nullConstrained`: symbols the constraint manager reports definitively
null; `assumptions`: recorded `size == 0` path constraints, `(s, b)`
meaning the constraint `s == 0` was assumed with truth value `b`). -/
structure ProgramState where
  regionState : List (Sym × RefState)
  reallocPairs : List (Sym × ReallocPair)
  freeReturnValue : List (Sym × Sym)
  reallocSizeZeroSymbols : List Sym
  nullConstrained : List Sym
  assumptions : List (Sym × Bool)
deriving DecidableEq, Repr

/-! ## Association-map operations (the engine's persistent maps) -/

/-- Lookup in an association map (`State->get<Table>(key)`). -/
def mapLookup {β : Type} : List (Sym × β) → Sym → Option β
  | [], _ => none
  | (k', v) :: rest, k => if k' = k then some v else mapLookup rest k

/-- Removal from an association map (`State->remove<Table>(key)`). -/
def mapRemove {β : Type} : List (Sym × β) → Sym → List (Sym × β)
  | [], _ => []
  | (k', v) :: rest, k =>
      if k' = k then mapRemove rest k else (k', v) :: mapRemove rest k

/-- Update of an association map (`State->set<Table>(key, val)`). -/
def mapSet {β : Type} (m : List (Sym × β)) (k : Sym) (v : β) :
    List (Sym × β) :=
  (k, v) :: mapRemove m k

/-- Insertion into a persistent set (`State->add<Set>(sym)`). -/
def setAdd (l : List Sym) (s : Sym) : List Sym :=
  if s ∈ l then l else s :: l

theorem mapLookup_remove_self {β : Type} (m : List (Sym × β)) (k : Sym) :
    mapLookup (mapRemove m k) k = none := by
  induction m with
  | nil => rfl
  | cons p rest ih =>
    obtain ⟨k', v⟩ := p
    by_cases h : k' = k
    · simp [mapRemove, h, ih]
    · simp [mapRemove, mapLookup, h, ih]

theorem mapLookup_remove_ne {β : Type} (m : List (Sym × β)) (k k' : Sym)
    (h : k' ≠ k) : mapLookup (mapRemove m k) k' = mapLookup m k' := by
  induction m with
  | nil => rfl
  | cons p rest ih =>
    obtain ⟨k₀, v⟩ := p
    by_cases hk : k₀ = k
    · subst hk
      rw [mapRemove, if_pos rfl, ih, mapLookup, if_neg (Ne.symm h)]
    · rw [mapRemove, if_neg hk, mapLookup, mapLookup]
      by_cases hk' : k₀ = k'
      · rw [if_pos hk', if_pos hk']
      · rw [if_neg hk', if_neg hk', ih]

theorem mapLookup_set_self {β : Type} (m : List (Sym × β)) (k : Sym) (v : β) :
    mapLookup (mapSet m k v) k = some v := by
  simp [mapSet, mapLookup]

theorem mapLookup_set_ne {β : Type} (m : List (Sym × β)) (k k' : Sym) (v : β)
    (h : k' ≠ k) : mapLookup (mapSet m k v) k' = mapLookup m k' := by
  rw [mapSet, mapLookup, if_neg (Ne.symm h)]
  exact mapLookup_remove_ne m k k' h

/-- Lookup through a key-based filter: filtering by a predicate on keys
keeps or drops all entries of a key at once. -/
theorem mapLookup_filter_key {β : Type} (m : List (Sym × β))
    (q : Sym → Bool) (k : Sym) :
    mapLookup (m.filter (fun p => q p.1)) k =
      if q k then mapLookup m k else none := by
  induction m with
  | nil => simp [mapLookup]
  | cons p rest ih =>
    obtain ⟨k₀, v⟩ := p
    rw [List.filter_cons]
    by_cases hq : q k₀
    · rw [if_pos (by simpa using hq)]
      by_cases hk : k₀ = k
      · subst hk
        simp [mapLookup, hq]
      · simp [mapLookup, hk, ih]
    · rw [if_neg (by simpa using hq)]
      by_cases hk : k₀ = k
      · subst hk
        simp only [Bool.not_eq_true] at hq
        simp [ih, hq, mapLookup]
      · simp [mapLookup, hk, ih]

/-- Membership of a key among the keys of a filtered association map with
no duplicate keys, characterized through `mapLookup`. -/
theorem mem_keys_filter_of_nodup {β : Type} (m : List (Sym × β))
    (hm : (m.map Prod.fst).Nodup) (p : Sym × β → Bool) (k : Sym) (v : β)
    (hv : mapLookup m k = some v) :
    k ∈ (m.filter p).map Prod.fst ↔ p (k, v) = true := by
  induction m with
  | nil => simp [mapLookup] at hv
  | cons e rest ih =>
    obtain ⟨k₀, v₀⟩ := e
    simp only [List.map_cons, List.nodup_cons] at hm
    obtain ⟨hk₀, hrest⟩ := hm
    rw [List.filter_cons]
    by_cases hk : k₀ = k
    · subst hk
      rw [mapLookup, if_pos rfl] at hv
      obtain rfl : v₀ = v := Option.some.inj hv
      by_cases hp : p (k₀, v₀)
      · rw [if_pos (by simpa using hp)]
        simp [hp]
      · rw [if_neg (by simpa using hp)]
        constructor
        · intro hmem
          exact absurd (((rest.filter_sublist).map Prod.fst).subset hmem) hk₀
        · intro h
          exact absurd h hp
    · rw [mapLookup, if_neg hk] at hv
      by_cases hp : p (k₀, v₀)
      · rw [if_pos (by simpa using hp)]
        simp only [List.map_cons, List.mem_cons]
        rw [ih hrest hv]
        constructor
        · intro h
          rcases h with h | h
          · exact absurd h.symm hk
          · exact h
        · intro h
          exact Or.inr h
      · rw [if_neg (by simpa using hp)]
        exact ih hrest hv

/-! ## Constraint queries -/

/-- `ConstraintManager::isNull(state, sym).isConstrainedTrue()`: the
constraint solver reports the symbol as definitively null. -/
def isNullB (state : ProgramState) (s : Sym) : Bool :=
  state.nullConstrained.contains s

/-- `didPreviousFreeFail` (MallocChecker.cpp:1619): the previous call to
free on the symbol recorded a return-value symbol that is now constrained
to null. -/
def didPreviousFreeFailB (state : ProgramState) (sym : Sym) : Bool :=
  match mapLookup state.freeReturnValue sym with
  | some ret => isNullB state ret
  | none => false

/-- Whether the symbol's record is `Allocated` or `AllocatedOfSizeZero`
(the `IsKnownToBeAllocated` out-parameter of `FreeMemAux`,
MallocChecker.cpp:1828). -/
def isKnownAllocated (state : ProgramState) (sym : Sym) : Bool :=
  match mapLookup state.regionState sym with
  | some rs => rs.K = RefKind.Allocated ∨ rs.K = RefKind.AllocatedOfSizeZero
  | none => false

/-! ## Deallocation modeler (`FreeMemAux`, MallocChecker.cpp:1750) -/

/-- `Offset.isValid() && !Offset.hasSymbolicOffset() &&
Offset.getOffset() != 0` (MallocChecker.cpp:1864). -/
def offsetNonZero : RegionOffsetInfo → Bool
  | RegionOffsetInfo.invalid => false
  | RegionOffsetInfo.symbolic => false
  | RegionOffsetInfo.concrete n => n ≠ 0

/-- The result of the deallocation modeler: the new state (`none` models
the null `ProgramStateRef` returned when modeling is aborted), the raised
diagnostics / engine interactions, and the `IsKnownToBeAllocated`
out-parameter. -/
structure FreeResult where
  state : Option ProgramState
  events : List Event
  isKnownToBeAllocated : Bool
deriving DecidableEq, Repr

/-- The tail of `FreeMemAux` (MallocChecker.cpp:1875-1905): function
pointer check, clearing and re-binding of the free-return-value entry,
and the transition to `Released` / `Relinquished` (`Hold`). -/
def freeFinish (state : ProgramState) (symBase : Sym)
    (rsFamily : Option AllocationFamily) (parentFamily : AllocationFamily)
    (parentStmt : Stmt) (hold returnsNullOnFailure : Bool)
    (retStatusSym : Option Sym) (isFnPtrType : Bool) (known : Bool) :
    FreeResult :=
  if isFnPtrType then
    ⟨none, [Event.report Report.FunctionPointerFree], known⟩
  else
    let st1 : ProgramState :=
      { state with freeReturnValue := mapRemove state.freeReturnValue symBase }
    let stEv : ProgramState × List Event :=
      if returnsNullOnFailure then
        match retStatusSym with
        | some r =>
            ({ st1 with
                freeReturnValue := mapSet st1.freeReturnValue symBase r },
             [Event.symbolDependency symBase r])
        | none => (st1, [])
      else (st1, [])
    let fam : AllocationFamily := rsFamily.getD parentFamily
    let rec' : RefState :=
      if hold then ⟨parentStmt, RefKind.Relinquished, fam⟩
      else ⟨parentStmt, RefKind.Released, fam⟩
    ⟨some { stEv.1 with
        regionState := mapSet stEv.1.regionState symBase rec' },
     stEv.2, known⟩

/-- `FreeMemAux` (MallocChecker.cpp:1750), modeled from the point where
the base symbol of the freed region has been extracted
(MallocChecker.cpp:1824).  Engine- and AST-derived facts are passed as
parameters: `parentFamily` is `getAllocationFamily` of the deallocation
expression, `parentStmt` its statement identity, `retStatusSym` the
symbol of the call's return value (for `ReturnsNullOnFailure`
deallocators), `offset` the freed region's offset from its base, and
`isFnPtrType` whether the base symbol's declared type is a function
pointer type. -/
def FreeMemAux (state : ProgramState) (symBase : Sym)
    (parentFamily : AllocationFamily) (parentStmt : Stmt)
    (hold returnsNullOnFailure : Bool) (retStatusSym : Option Sym)
    (offset : RegionOffsetInfo) (isFnPtrType : Bool) : FreeResult :=
  let known := isKnownAllocated state symBase
  match mapLookup state.regionState symBase with
  | some rs =>
    if rs.Family = AllocationFamily.AF_Alloca then
      ⟨none, [Event.report Report.FreeAlloca], known⟩
    else if (rs.K = RefKind.Released ∨ rs.K = RefKind.Relinquished) ∧
        didPreviousFreeFailB state symBase = false then
      ⟨none,
       [Event.report (Report.DoubleFree (rs.K = RefKind.Released))], known⟩
    else if (rs.K = RefKind.Allocated ∨ rs.K = RefKind.AllocatedOfSizeZero ∨
        rs.K = RefKind.Escaped) ∧ rs.Family ≠ parentFamily then
      ⟨none, [Event.report Report.MismatchedDealloc], known⟩
    else if (rs.K = RefKind.Allocated ∨ rs.K = RefKind.AllocatedOfSizeZero ∨
        rs.K = RefKind.Escaped) ∧ offsetNonZero offset = true then
      ⟨none, [Event.report Report.OffsetFree], known⟩
    else
      freeFinish state symBase (some rs.Family) parentFamily parentStmt hold
        returnsNullOnFailure retStatusSym isFnPtrType known
  | none =>
      freeFinish state symBase none parentFamily parentStmt hold
        returnsNullOnFailure retStatusSym isFnPtrType known

/-- Whether a `DoubleFree` diagnostic occurs among the raised events. -/
def containsDoubleFree (events : List Event) : Bool :=
  events.any (fun e =>
    match e with
    | Event.report (Report.DoubleFree _) => true
    | _ => false)

theorem containsDoubleFree_freeFinish (state : ProgramState) (symBase : Sym)
    (rsFamily : Option AllocationFamily) (parentFamily : AllocationFamily)
    (parentStmt : Stmt) (hold returnsNullOnFailure : Bool)
    (retStatusSym : Option Sym) (isFnPtrType : Bool) (known : Bool) :
    containsDoubleFree (freeFinish state symBase rsFamily parentFamily
      parentStmt hold returnsNullOnFailure retStatusSym isFnPtrType
      known).events = false := by
  unfold freeFinish
  cases isFnPtrType <;> cases returnsNullOnFailure <;>
    cases retStatusSym <;> rfl

theorem freeFinish_lookup (state : ProgramState) (symBase : Sym)
    (rsFamily : Option AllocationFamily) (parentFamily : AllocationFamily)
    (parentStmt : Stmt) (hold returnsNullOnFailure : Bool)
    (retStatusSym : Option Sym) (isFnPtrType : Bool) (known : Bool)
    (s₁ : ProgramState)
    (h : (freeFinish state symBase rsFamily parentFamily parentStmt hold
      returnsNullOnFailure retStatusSym isFnPtrType known).state = some s₁) :
    mapLookup s₁.regionState symBase =
      some ⟨parentStmt,
        if hold then RefKind.Relinquished else RefKind.Released,
        rsFamily.getD parentFamily⟩ := by
  unfold freeFinish at h
  by_cases hfp : isFnPtrType = true
  · rw [if_pos hfp] at h
    exact absurd h (by simp)
  · rw [if_neg hfp] at h
    obtain rfl := Option.some.inj h
    cases hold <;> simp [mapLookup_set_self]

/-- A state whose region table maps symbol `3` to a `Released` record of
the `Alloca` family, with no free-return-value entry. -/
def c1State : ProgramState :=
  ⟨[(3, ⟨0, RefKind.Released, AllocationFamily.AF_Alloca⟩)], [], [], [], [],
   []⟩

/-- C1, counterexample: calling the deallocation modeler on a symbol whose
record is `Released` (and whose previous free did not fail) does **not**
emit `DoubleFree` when the record's allocation family is `Alloca` — the
`FreeAlloca` check fires first (MallocChecker.cpp:1834), so the claimed
"if and only if" fails at this input. -/
theorem freeMemAux_alloca_released_no_doubleFree :
    mapLookup c1State.regionState 3 =
      some ⟨0, RefKind.Released, AllocationFamily.AF_Alloca⟩ ∧
    didPreviousFreeFailB c1State 3 = false ∧
    containsDoubleFree (FreeMemAux c1State 3 AllocationFamily.AF_Malloc 9
      false false none RegionOffsetInfo.invalid false).events = false := by
  decide

/-- C1 (amended): for a call of the deallocation modeler on a pointer
whose base symbol has a region-table record, `DoubleFree` is emitted iff
the record's family is not `Alloca`, its state is `Released` or
`Relinquished`, and the previous free of the symbol did not definitely
fail; when `DoubleFree` is emitted it is the only raised event and the
modeler returns the null state (no state update); and a second `modelFree`
on the same symbol after a successful free (whose recorded free-return
symbol is not constrained to null) reports `DoubleFree` exactly once and
returns the null state. -/
theorem freeMemAux_doubleFree_characterization
    (state : ProgramState) (sym : Sym) (parentFamily : AllocationFamily)
    (parentStmt : Stmt) (hold returnsNullOnFailure : Bool)
    (retStatusSym : Option Sym) (offset : RegionOffsetInfo)
    (isFnPtrType : Bool) (rs : RefState)
    (hrec : mapLookup state.regionState sym = some rs) :
    (containsDoubleFree (FreeMemAux state sym parentFamily parentStmt hold
        returnsNullOnFailure retStatusSym offset isFnPtrType).events =
        true ↔
      rs.Family ≠ AllocationFamily.AF_Alloca ∧
      (rs.K = RefKind.Released ∨ rs.K = RefKind.Relinquished) ∧
      didPreviousFreeFailB state sym = false) ∧
    (containsDoubleFree (FreeMemAux state sym parentFamily parentStmt hold
        returnsNullOnFailure retStatusSym offset isFnPtrType).events =
        true →
      (FreeMemAux state sym parentFamily parentStmt hold
        returnsNullOnFailure retStatusSym offset isFnPtrType).state =
        none ∧
      (FreeMemAux state sym parentFamily parentStmt hold
        returnsNullOnFailure retStatusSym offset isFnPtrType).events =
        [Event.report (Report.DoubleFree (rs.K = RefKind.Released))]) ∧
    (∀ (s₁ : ProgramState) (pf₂ : AllocationFamily) (ps₂ : Stmt)
        (h₂ rnf₂ : Bool) (rss₂ : Option Sym) (off₂ : RegionOffsetInfo)
        (fp₂ : Bool),
      (FreeMemAux state sym parentFamily parentStmt hold
        returnsNullOnFailure retStatusSym offset isFnPtrType).state =
        some s₁ →
      didPreviousFreeFailB s₁ sym = false →
      (FreeMemAux s₁ sym pf₂ ps₂ h₂ rnf₂ rss₂ off₂ fp₂).state = none ∧
      (FreeMemAux s₁ sym pf₂ ps₂ h₂ rnf₂ rss₂ off₂ fp₂).events =
        [Event.report (Report.DoubleFree (!hold))]) := by
  simp only [FreeMemAux, hrec]
  by_cases h1 : rs.Family = AllocationFamily.AF_Alloca
  · rw [if_pos h1]
    refine ⟨?_, ?_, ?_⟩
    · simp [containsDoubleFree, h1]
    · intro h
      simp [containsDoubleFree] at h
    · intro s₁ pf₂ ps₂ h₂ rnf₂ rss₂ off₂ fp₂ hs₁ _
      simp at hs₁
  · rw [if_neg h1]
    by_cases h2 : (rs.K = RefKind.Released ∨ rs.K = RefKind.Relinquished) ∧
        didPreviousFreeFailB state sym = false
    · rw [if_pos h2]
      refine ⟨?_, ?_, ?_⟩
      · simp [containsDoubleFree, h1, h2.1, h2.2]
      · intro _
        exact ⟨rfl, rfl⟩
      · intro s₁ pf₂ ps₂ h₂' rnf₂ rss₂ off₂ fp₂ hs₁ _
        simp at hs₁
    · rw [if_neg h2]
      have hRHS : ¬(rs.Family ≠ AllocationFamily.AF_Alloca ∧
          (rs.K = RefKind.Released ∨ rs.K = RefKind.Relinquished) ∧
          didPreviousFreeFailB state sym = false) := by
        intro h
        exact h2 h.2
      by_cases h3 : (rs.K = RefKind.Allocated ∨
          rs.K = RefKind.AllocatedOfSizeZero ∨ rs.K = RefKind.Escaped) ∧
          rs.Family ≠ parentFamily
      · rw [if_pos h3]
        refine ⟨?_, ?_, ?_⟩
        · exact iff_of_false (by simp [containsDoubleFree]) hRHS
        · intro h
          simp [containsDoubleFree] at h
        · intro s₁ pf₂ ps₂ h₂' rnf₂ rss₂ off₂ fp₂ hs₁ _
          simp at hs₁
      · rw [if_neg h3]
        by_cases h4 : (rs.K = RefKind.Allocated ∨
            rs.K = RefKind.AllocatedOfSizeZero ∨ rs.K = RefKind.Escaped) ∧
            offsetNonZero offset = true
        · rw [if_pos h4]
          refine ⟨?_, ?_, ?_⟩
          · exact iff_of_false (by simp [containsDoubleFree]) hRHS
          · intro h
            simp [containsDoubleFree] at h
          · intro s₁ pf₂ ps₂ h₂' rnf₂ rss₂ off₂ fp₂ hs₁ _
            simp at hs₁
        · rw [if_neg h4]
          refine ⟨?_, ?_, ?_⟩
          · rw [containsDoubleFree_freeFinish]
            exact iff_of_false (by simp) hRHS
          · intro h
            rw [containsDoubleFree_freeFinish] at h
            simp at h
          · intro s₁ pf₂ ps₂ h₂' rnf₂ rss₂ off₂ fp₂ hs₁ hnf
            have hlk := freeFinish_lookup state sym (some rs.Family)
              parentFamily parentStmt hold returnsNullOnFailure retStatusSym
              isFnPtrType (isKnownAllocated state sym) s₁ hs₁
            simp only [Option.getD] at hlk
            simp only [FreeMemAux, hlk]
            have hk : ((if hold then RefKind.Relinquished
                else RefKind.Released) = RefKind.Released ∨
                (if hold then RefKind.Relinquished
                else RefKind.Released) = RefKind.Relinquished) := by
              cases hold <;> simp
            rw [if_neg (by simpa using h1), if_pos ⟨hk, hnf⟩]
            refine ⟨rfl, ?_⟩
            cases hold <;> rfl

/-- A state whose region table maps symbol `4` to a `Released` record of
the `Malloc` family. -/
def c1wState : ProgramState :=
  ⟨[(4, ⟨0, RefKind.Released, AllocationFamily.AF_Malloc⟩)], [], [], [], [],
   []⟩

/-- C1 witness: the characterization applied at a concrete input — a
second free of an already-released malloc symbol stops with exactly one
`DoubleFree`. -/
theorem freeMemAux_doubleFree_characterization_witness :
    (FreeMemAux c1wState 4 AllocationFamily.AF_Malloc 7 false false none
      RegionOffsetInfo.invalid false).state = none ∧
    (FreeMemAux c1wState 4 AllocationFamily.AF_Malloc 7 false false none
      RegionOffsetInfo.invalid false).events =
      [Event.report (Report.DoubleFree true)] := by
  have h := freeMemAux_doubleFree_characterization c1wState 4
    AllocationFamily.AF_Malloc 7 false false none RegionOffsetInfo.invalid
    false ⟨0, RefKind.Released, AllocationFamily.AF_Malloc⟩ (by decide)
  exact h.2.1 (h.1.mpr (by decide))

/-! ## Allocation modeler (`MallocMemAux`, MallocChecker.cpp:1513) -/

/-- `MallocMemAux` (MallocChecker.cpp:1513).  The engine-side effects —
conjuring the fresh heap symbol (`retSym`), binding it as the call's
result, default-initializing the region with `init`, and constraining the
region's extent to the size — are summarized by the fresh symbol
parameter and by returning the initialization value used; the
checker-side effect is `MallocUpdateRefState` (MallocChecker.cpp:1557),
which inserts an `Allocated` record for the fresh symbol.  A `none`
result models the null `ProgramStateRef`. -/
def MallocMemAux (state : ProgramState) (retSym : Sym)
    (family : AllocationFamily) (stmt : Stmt) (retTypeIsPointer : Bool)
    (init : InitVal) : Option (ProgramState × InitVal) :=
  if retTypeIsPointer = false then none
  else some
    ({ state with
        regionState := mapSet state.regionState retSym
          ⟨stmt, RefKind.Allocated, family⟩ }, init)

/-- The empty program state. -/
def emptyState : ProgramState := ⟨[], [], [], [], [], []⟩

/-- C5, counterexample: when the call's declared return type is not
pointer-like, `MallocMemAux` returns the null `ProgramStateRef`
(`return nullptr`, MallocChecker.cpp:1522-1523) — not the unchanged input
state. -/
theorem mallocMemAux_nonpointer_returns_null :
    MallocMemAux emptyState 5 AllocationFamily.AF_Malloc 0 false
      InitVal.undef = none ∧
    MallocMemAux emptyState 5 AllocationFamily.AF_Malloc 0 false
      InitVal.undef ≠ some (emptyState, InitVal.undef) := by
  decide

/-- C5 (amended): for every call of the allocation modeler where the
call's declared return type is not pointer-like, the modeler performs no
allocation modeling and returns the **null** state, which the enclosing
callback treats as "no new state" (the path state is then left
unchanged by `addTransition`). -/
theorem mallocMemAux_nonpointer_no_model (state : ProgramState)
    (retSym : Sym) (family : AllocationFamily) (stmt : Stmt)
    (init : InitVal) :
    MallocMemAux state retSym family stmt false init = none := rfl

/-! ## Realloc modeler, general case (`ReallocMemAux`,
MallocChecker.cpp:2474) -/

/-- Result of the realloc modeler: new state (or null) and raised
events. -/
structure ReallocResult where
  state : Option ProgramState
  events : List Event
deriving DecidableEq, Repr

theorem freeFinish_isKnown (state : ProgramState) (symBase : Sym)
    (rsFamily : Option AllocationFamily) (parentFamily : AllocationFamily)
    (parentStmt : Stmt) (hold returnsNullOnFailure : Bool)
    (retStatusSym : Option Sym) (isFnPtrType : Bool) (known : Bool) :
    (freeFinish state symBase rsFamily parentFamily parentStmt hold
      returnsNullOnFailure retStatusSym isFnPtrType
      known).isKnownToBeAllocated = known := by
  unfold freeFinish
  split <;> rfl

theorem freeMemAux_isKnown (state : ProgramState) (symBase : Sym)
    (parentFamily : AllocationFamily) (parentStmt : Stmt)
    (hold returnsNullOnFailure : Bool) (retStatusSym : Option Sym)
    (offset : RegionOffsetInfo) (isFnPtrType : Bool) :
    (FreeMemAux state symBase parentFamily parentStmt hold
      returnsNullOnFailure retStatusSym offset
      isFnPtrType).isKnownToBeAllocated =
      isKnownAllocated state symBase := by
  cases hm : mapLookup state.regionState symBase with
  | none =>
    simp only [FreeMemAux, hm]
    exact freeFinish_isKnown _ _ _ _ _ _ _ _ _ _
  | some rs =>
    simp only [FreeMemAux, hm]
    by_cases h1 : rs.Family = AllocationFamily.AF_Alloca
    · rw [if_pos h1]
    · rw [if_neg h1]
      by_cases h2 : (rs.K = RefKind.Released ∨ rs.K = RefKind.Relinquished) ∧
          didPreviousFreeFailB state symBase = false
      · rw [if_pos h2]
      · rw [if_neg h2]
        by_cases h3 : (rs.K = RefKind.Allocated ∨
            rs.K = RefKind.AllocatedOfSizeZero ∨ rs.K = RefKind.Escaped) ∧
            rs.Family ≠ parentFamily
        · rw [if_pos h3]
        · rw [if_neg h3]
          by_cases h4 : (rs.K = RefKind.Allocated ∨
              rs.K = RefKind.AllocatedOfSizeZero ∨
              rs.K = RefKind.Escaped) ∧ offsetNonZero offset = true
          · rw [if_pos h4]
          · rw [if_neg h4]
            exact freeFinish_isKnown _ _ _ _ _ _ _ _ _ _

/-- The "default behavior" branch of `ReallocMemAux`
(MallocChecker.cpp:2474-2497): pointer known non-null and size non-zero.
`fromPtr` is the symbol of the reallocated pointer argument, `toPtr` the
symbol of the call's return value.  The pointer is freed through
`FreeMemAux` (`Hold = false`, `ReturnsNullOnFailure = false`), the new
buffer allocated through `MallocMemAux` with `UnknownVal` initialization,
the realloc-pair entry recorded and the symbol dependency registered. -/
def ReallocMemAux (state : ProgramState) (fromPtr toPtr : Sym)
    (shouldFreeOnFail : Bool) (parentFamily : AllocationFamily)
    (parentStmt : Stmt) (offset : RegionOffsetInfo)
    (isFnPtrType retTypeIsPointer : Bool) : ReallocResult :=
  let fr := FreeMemAux state fromPtr parentFamily parentStmt false false
    none offset isFnPtrType
  match fr.state with
  | none => ⟨none, fr.events⟩
  | some stateFree =>
    match MallocMemAux stateFree toPtr AllocationFamily.AF_Malloc
        parentStmt retTypeIsPointer InitVal.unknown with
    | none => ⟨none, fr.events⟩
    | some (stateRealloc, _) =>
      let kind :=
        if shouldFreeOnFail then
          OwnershipAfterReallocKind.OAR_FreeOnFailure
        else if fr.isKnownToBeAllocated = false then
          OwnershipAfterReallocKind.OAR_DoNotTrackAfterFailure
        else OwnershipAfterReallocKind.OAR_ToBeFreedAfterFailure
      ⟨some { stateRealloc with
          reallocPairs := mapSet stateRealloc.reallocPairs toPtr
            ⟨fromPtr, kind⟩ },
       fr.events ++ [Event.symbolDependency toPtr fromPtr]⟩

/-- C4: in the general case of the realloc modeler, the recorded
realloc-pair entry maps the to-symbol to the from-symbol with policy
`FreeOnFailure` exactly when modeling the `reallocf`-style variant,
otherwise `ToBeFreedAfterFailure` exactly when the from-symbol was known
to be allocated at free time, otherwise `DoNotTrackAfterFailure`; and a
symbol dependency keeping the from-symbol live as long as the to-symbol
is registered. -/
theorem reallocMemAux_pair_policy (state : ProgramState)
    (fromPtr toPtr : Sym) (shouldFreeOnFail : Bool)
    (parentFamily : AllocationFamily) (parentStmt : Stmt)
    (offset : RegionOffsetInfo) (isFnPtrType retTypeIsPointer : Bool)
    (st' : ProgramState)
    (h : (ReallocMemAux state fromPtr toPtr shouldFreeOnFail parentFamily
      parentStmt offset isFnPtrType retTypeIsPointer).state = some st') :
    mapLookup st'.reallocPairs toPtr =
      some ⟨fromPtr,
        if shouldFreeOnFail then
          OwnershipAfterReallocKind.OAR_FreeOnFailure
        else if isKnownAllocated state fromPtr then
          OwnershipAfterReallocKind.OAR_ToBeFreedAfterFailure
        else OwnershipAfterReallocKind.OAR_DoNotTrackAfterFailure⟩ ∧
    Event.symbolDependency toPtr fromPtr ∈
      (ReallocMemAux state fromPtr toPtr shouldFreeOnFail parentFamily
        parentStmt offset isFnPtrType retTypeIsPointer).events := by
  cases hfr : (FreeMemAux state fromPtr parentFamily parentStmt false false
      none offset isFnPtrType).state with
  | none =>
    simp [ReallocMemAux, hfr] at h
  | some stateFree =>
    cases hma : MallocMemAux stateFree toPtr AllocationFamily.AF_Malloc
        parentStmt retTypeIsPointer InitVal.unknown with
    | none =>
      simp [ReallocMemAux, hfr, hma] at h
    | some pr =>
      obtain ⟨stateRealloc, iv⟩ := pr
      simp only [ReallocMemAux, hfr, hma, Option.some.injEq] at h ⊢
      subst h
      refine ⟨?_, by simp⟩
      rw [mapLookup_set_self, freeMemAux_isKnown]
      cases hsf : shouldFreeOnFail <;>
        cases hka : isKnownAllocated state fromPtr <;> simp

/-- A state whose region table maps symbol `1` to an `Allocated` record
of the `Malloc` family. -/
def c4State : ProgramState :=
  ⟨[(1, ⟨0, RefKind.Allocated, AllocationFamily.AF_Malloc⟩)], [], [], [],
   [], []⟩

/-- The state produced by the general realloc case on `c4State` with
`fromPtr = 1`, `toPtr = 2`. -/
def c4Result : ProgramState :=
  ⟨[(2, ⟨5, RefKind.Allocated, AllocationFamily.AF_Malloc⟩),
    (1, ⟨5, RefKind.Released, AllocationFamily.AF_Malloc⟩)],
   [(2, ⟨1, OwnershipAfterReallocKind.OAR_ToBeFreedAfterFailure⟩)],
   [], [], [], []⟩

/-- C4 witness: the pair-policy theorem applied at a concrete successful
realloc of an allocated malloc symbol. -/
theorem reallocMemAux_pair_policy_witness :
    mapLookup c4Result.reallocPairs 2 =
      some ⟨1, OwnershipAfterReallocKind.OAR_ToBeFreedAfterFailure⟩ ∧
    Event.symbolDependency 2 1 ∈
      (ReallocMemAux c4State 1 2 false AllocationFamily.AF_Malloc 5
        RegionOffsetInfo.invalid false true).events := by
  have h := reallocMemAux_pair_policy c4State 1 2 false
    AllocationFamily.AF_Malloc 5 RegionOffsetInfo.invalid false true
    c4Result (by decide)
  exact ⟨h.1, h.2⟩

/-! ## Leak reporting and dead-symbol cleanup
(`reportLeak` MallocChecker.cpp:2557, `checkDeadSymbols`
MallocChecker.cpp:2620) -/

/-- The five sub-checker toggles (`ChecksEnabled`). -/
structure ChecksEnabled where
  mallocChecker : Bool
  newDeleteChecker : Bool
  newDeleteLeaksChecker : Bool
  mismatchedDeallocatorChecker : Bool
  innerPointerChecker : Bool
deriving DecidableEq, Repr

/-- `MallocChecker::CheckKind`. -/
inductive CheckKind
  | CK_MallocChecker
  | CK_NewDeleteChecker
  | CK_NewDeleteLeaksChecker
  | CK_MismatchedDeallocatorChecker
  | CK_InnerPointerChecker
deriving DecidableEq, Repr

/-- `getCheckIfTracked(AllocationFamily, IsALeakCheck)`
(MallocChecker.cpp:1907).  The `AF_None` case is `llvm_unreachable` in
the source; it is modeled defensively as `none`. -/
def getCheckIfTracked (checks : ChecksEnabled) (family : AllocationFamily)
    (isALeakCheck : Bool) : Option CheckKind :=
  match family with
  | AllocationFamily.AF_Malloc | AllocationFamily.AF_Alloca
  | AllocationFamily.AF_IfNameIndex =>
    if checks.mallocChecker then some CheckKind.CK_MallocChecker else none
  | AllocationFamily.AF_CXXNew | AllocationFamily.AF_CXXNewArray =>
    if isALeakCheck then
      if checks.newDeleteLeaksChecker then
        some CheckKind.CK_NewDeleteLeaksChecker
      else none
    else
      if checks.newDeleteChecker then some CheckKind.CK_NewDeleteChecker
      else none
  | AllocationFamily.AF_InnerBuffer =>
    if checks.innerPointerChecker then
      some CheckKind.CK_InnerPointerChecker
    else none
  | AllocationFamily.AF_None => none

/-- `reportLeak` (MallocChecker.cpp:2557): decides whether a leak report
is emitted for a leaked symbol.  `state` is the callback-entry state
(`C.getState()`), in which the dead symbol's record is still present. -/
def reportLeak (checks : ChecksEnabled) (state : ProgramState)
    (sym : Sym) : Option Report :=
  if checks.mallocChecker = false ∧
      checks.newDeleteLeaksChecker = false then none
  else
    match mapLookup state.regionState sym with
    | none => none
    | some rs =>
      if rs.Family = AllocationFamily.AF_Alloca then none
      else
        match getCheckIfTracked checks rs.Family true with
        | none => none
        | some _ => some (Report.Leak sym)

/-- Result of the dead-symbols callback: the final state, the collected
leak candidates (`Errors`), and the emitted leak reports. -/
structure DeadSymbolsResult where
  state : ProgramState
  errors : List Sym
  reports : List Report
deriving DecidableEq, Repr

/-- `checkDeadSymbols` (MallocChecker.cpp:2620).  `deadSyms` lists the
symbols the `SymbolReaper` reports dead; `leakNodeOk` models whether
`generateNonFatalErrorNode` produced a node.  Note the early return when
removing dead symbols leaves the region table unchanged
(MallocChecker.cpp:2638-2645): the realloc-pair and free-return-value
tables are then not cleaned. -/
def checkDeadSymbols (checks : ChecksEnabled) (deadSyms : List Sym)
    (leakNodeOk : Bool) (state : ProgramState) : DeadSymbolsResult :=
  let errors := (state.regionState.filter (fun p =>
      deadSyms.contains p.1 &&
      decide (p.2.K = RefKind.Allocated ∨
        p.2.K = RefKind.AllocatedOfSizeZero))).map Prod.fst
  let rs := state.regionState.filter (fun p => !(deadSyms.contains p.1))
  if rs = state.regionState then ⟨state, [], []⟩
  else
    let rp := state.reallocPairs.filter (fun p =>
      !(deadSyms.contains p.1 || deadSyms.contains p.2.ReallocatedSym))
    let fr := state.freeReturnValue.filter (fun p =>
      !(deadSyms.contains p.1 || deadSyms.contains p.2))
    let reports :=
      if errors ≠ [] ∧ leakNodeOk = true then
        errors.filterMap (reportLeak checks state)
      else []
    ⟨{ state with
        regionState := rs, reallocPairs := rp, freeReturnValue := fr },
     errors, reports⟩

theorem reportLeak_shape (checks : ChecksEnabled) (st : ProgramState)
    (s : Sym) (r : Report) (h : reportLeak checks st s = some r) :
    r = Report.Leak s := by
  unfold reportLeak at h
  split at h
  · exact absurd h (by simp)
  · split at h
    · exact absurd h (by simp)
    · split at h
      · exact absurd h (by simp)
      · split at h
        · exact absurd h (by simp)
        · exact (Option.some.inj h).symm

theorem reportLeak_alloca (checks : ChecksEnabled) (st : ProgramState)
    (s : Sym) (rs : RefState) (hm : mapLookup st.regionState s = some rs)
    (hA : rs.Family = AllocationFamily.AF_Alloca) :
    reportLeak checks st s = none := by
  unfold reportLeak
  split
  · rfl
  · simp only [hm]
    rw [if_pos hA]

theorem mapLookup_mem {β : Type} (m : List (Sym × β)) (k : Sym) (v : β)
    (h : mapLookup m k = some v) : (k, v) ∈ m := by
  induction m with
  | nil => simp [mapLookup] at h
  | cons p rest ih =>
    obtain ⟨k₀, v₀⟩ := p
    rw [mapLookup] at h
    by_cases hk : k₀ = k
    · rw [if_pos hk] at h
      obtain rfl := Option.some.inj h
      subst hk
      exact List.mem_cons_self _ _
    · rw [if_neg hk] at h
      exact List.mem_cons_of_mem _ (ih h)

/-- C2: on the dead-symbols callback, a dead symbol with a region-table
record is collected as a leak candidate iff its state is `Allocated` or
`AllocatedOfSizeZero`; it is removed from the region table regardless of
its state; and if its allocation family is `Alloca`, no leak report is
emitted for it. -/
theorem checkDeadSymbols_leak_candidates (checks : ChecksEnabled)
    (deadSyms : List Sym) (leakNodeOk : Bool) (state : ProgramState)
    (hnodup : (state.regionState.map Prod.fst).Nodup)
    (sym : Sym) (rec : RefState)
    (hl : mapLookup state.regionState sym = some rec)
    (hd : deadSyms.contains sym = true) :
    (sym ∈ (checkDeadSymbols checks deadSyms leakNodeOk state).errors ↔
      (rec.K = RefKind.Allocated ∨ rec.K = RefKind.AllocatedOfSizeZero)) ∧
    mapLookup (checkDeadSymbols checks deadSyms leakNodeOk
      state).state.regionState sym = none ∧
    (rec.Family = AllocationFamily.AF_Alloca →
      Report.Leak sym ∉
        (checkDeadSymbols checks deadSyms leakNodeOk state).reports) := by
  have hlf : mapLookup (state.regionState.filter
      (fun p => !(deadSyms.contains p.1))) sym =
      if !(deadSyms.contains sym) then mapLookup state.regionState sym
      else none :=
    mapLookup_filter_key state.regionState
      (fun k => !(deadSyms.contains k)) sym
  rw [hd] at hlf
  simp only [Bool.not_true, if_false] at hlf
  have hne : state.regionState.filter (fun p => !(deadSyms.contains p.1)) ≠
      state.regionState := by
    intro heq
    rw [heq, hl] at hlf
    exact absurd hlf (by simp)
  simp only [checkDeadSymbols]
  rw [if_neg hne]
  refine ⟨?_, hlf, ?_⟩
  · have hmem := mem_keys_filter_of_nodup state.regionState hnodup
      (fun p => deadSyms.contains p.1 &&
        decide (p.2.K = RefKind.Allocated ∨
          p.2.K = RefKind.AllocatedOfSizeZero)) sym rec hl
    simp only [hd, Bool.true_and, decide_eq_true_eq] at hmem
    exact hmem
  · intro hAl hrep
    by_cases hcond : ((state.regionState.filter (fun p =>
        deadSyms.contains p.1 &&
        decide (p.2.K = RefKind.Allocated ∨
          p.2.K = RefKind.AllocatedOfSizeZero))).map Prod.fst ≠ [] ∧
        leakNodeOk = true)
    · rw [if_pos hcond] at hrep
      rw [List.mem_filterMap] at hrep
      obtain ⟨s', _, hs'⟩ := hrep
      obtain rfl : s' = sym :=
        Report.Leak.inj (reportLeak_shape checks state s' _ hs').symm
      rw [reportLeak_alloca checks state s' rec hl hAl] at hs'
      exact absurd hs' (by simp)
    · rw [if_neg hcond] at hrep
      exact absurd hrep (List.not_mem_nil _)

/-- A state tracking symbol `4` as an `Allocated` malloc record. -/
def c2wState : ProgramState :=
  ⟨[(4, ⟨0, RefKind.Allocated, AllocationFamily.AF_Malloc⟩)], [], [], [],
   [], []⟩

/-- C2 witness: the dead-symbols theorem applied at a concrete input —
the dead allocated symbol is collected and removed. -/
theorem checkDeadSymbols_leak_candidates_witness :
    4 ∈ (checkDeadSymbols ⟨true, true, true, true, true⟩ [4] true
      c2wState).errors ∧
    mapLookup (checkDeadSymbols ⟨true, true, true, true, true⟩ [4] true
      c2wState).state.regionState 4 = none := by
  have h := checkDeadSymbols_leak_candidates ⟨true, true, true, true, true⟩
    [4] true c2wState (by decide) 4
    ⟨0, RefKind.Allocated, AllocationFamily.AF_Malloc⟩ (by decide)
    (by decide)
  exact ⟨h.1.mpr (Or.inl rfl), h.2.1⟩

/-- A state with an empty region table but a realloc-pair entry keyed by
symbol `1`. -/
def c6State : ProgramState :=
  ⟨[], [(1, ⟨2, OwnershipAfterReallocKind.OAR_ToBeFreedAfterFailure⟩)],
   [], [], [], []⟩

/-- C6, counterexample: when no region-table entry is dead, the callback
takes its early return (MallocChecker.cpp:2638-2645) without cleaning the
realloc-pair table, so an entry keyed by a dead symbol survives the
callback. -/
theorem checkDeadSymbols_early_exit_dangling :
    ([1] : List Sym).contains 1 = true ∧
    mapLookup (checkDeadSymbols ⟨true, true, true, true, true⟩ [1] true
      c6State).state.reallocPairs 1 =
      some ⟨2, OwnershipAfterReallocKind.OAR_ToBeFreedAfterFailure⟩ := by
  decide

/-- C6 (amended): provided removing the dead symbols actually changed the
region table (otherwise the callback returns early and cleans nothing),
no realloc-pair entry and no free-return-value entry of the resulting
state mentions, as key or as stored value, a symbol reported dead. -/
theorem checkDeadSymbols_no_dangling_after_cleanup (checks : ChecksEnabled)
    (deadSyms : List Sym) (leakNodeOk : Bool) (state : ProgramState)
    (hchanged : state.regionState.filter
      (fun p => !(deadSyms.contains p.1)) ≠ state.regionState) :
    (∀ t pr, (t, pr) ∈ (checkDeadSymbols checks deadSyms leakNodeOk
        state).state.reallocPairs →
      deadSyms.contains t = false ∧
      deadSyms.contains pr.ReallocatedSym = false) ∧
    (∀ t v, (t, v) ∈ (checkDeadSymbols checks deadSyms leakNodeOk
        state).state.freeReturnValue →
      deadSyms.contains t = false ∧ deadSyms.contains v = false) := by
  simp only [checkDeadSymbols]
  rw [if_neg hchanged]
  constructor
  · intro t pr hmem
    rw [List.mem_filter] at hmem
    have h2 := hmem.2
    simp only [Bool.not_eq_true', Bool.or_eq_false_iff] at h2
    exact h2
  · intro t v hmem
    rw [List.mem_filter] at hmem
    have h2 := hmem.2
    simp only [Bool.not_eq_true', Bool.or_eq_false_iff] at h2
    exact h2

/-- A state tracking dead symbol `3` and holding a realloc-pair entry
keyed by dead symbol `1`. -/
def c6wState : ProgramState :=
  ⟨[(3, ⟨0, RefKind.Allocated, AllocationFamily.AF_Malloc⟩)],
   [(1, ⟨2, OwnershipAfterReallocKind.OAR_ToBeFreedAfterFailure⟩)],
   [], [], [], []⟩

/-- C6 witness: the cleanup theorem applied at a concrete input — once a
region-table entry dies, the dead-keyed realloc-pair entry is dropped. -/
theorem checkDeadSymbols_no_dangling_after_cleanup_witness :
    mapLookup (checkDeadSymbols ⟨true, true, true, true, true⟩ [3, 1] true
      c6wState).state.reallocPairs 1 = none := by
  have h := checkDeadSymbols_no_dangling_after_cleanup
    ⟨true, true, true, true, true⟩ [3, 1] true c6wState (by decide)
  cases hm : mapLookup (checkDeadSymbols ⟨true, true, true, true, true⟩
      [3, 1] true c6wState).state.reallocPairs 1 with
  | none => rfl
  | some pr =>
    exact absurd (h.1 1 pr (mapLookup_mem _ _ _ hm)).1 (by decide)

/-! ## Assumption hook (`evalAssume`, MallocChecker.cpp:2884) -/

/-- The restore step of `evalAssume`'s realloc-pair loop
(MallocChecker.cpp:2907-2921): if the from-symbol (`ReallocatedSym`) has
a `Released` record, restore it according to the pair's ownership
policy. -/
def restoreFromSym (st : ProgramState) (e : Sym × ReallocPair) :
    ProgramState :=
  match mapLookup st.regionState e.2.ReallocatedSym with
  | some rs =>
    if rs.K = RefKind.Released then
      match e.2.Kind with
      | OwnershipAfterReallocKind.OAR_ToBeFreedAfterFailure =>
        { st with
            regionState := mapSet st.regionState e.2.ReallocatedSym
              ⟨rs.S, RefKind.Allocated, rs.Family⟩ }
      | OwnershipAfterReallocKind.OAR_DoNotTrackAfterFailure =>
        { st with
            regionState := mapRemove st.regionState e.2.ReallocatedSym }
      | OwnershipAfterReallocKind.OAR_FreeOnFailure => st
    else st
  | none => st

/-- One iteration of `evalAssume`'s realloc-pair loop
(MallocChecker.cpp:2899-2923), processing a captured pair entry against
the evolving state: if the pair's key (the to-symbol) is definitively
null, restore the from-symbol and remove the pair entry. -/
def processReallocPair (st : ProgramState) (e : Sym × ReallocPair) :
    ProgramState :=
  if isNullB st e.1 = true then
    { restoreFromSym st e with
        reallocPairs := mapRemove (restoreFromSym st e).reallocPairs e.1 }
  else st

/-- The first loop of `evalAssume` (MallocChecker.cpp:2887-2894): drop
the region-table records of definitively-null symbols. -/
def evalAssumeStep1 (state : ProgramState) : ProgramState :=
  { state with regionState :=
      state.regionState.filter (fun p => !(isNullB state p.1)) }

/-- `evalAssume` (MallocChecker.cpp:2884): the null-record sweep followed
by the realloc-pair loop over the captured pair list. -/
def evalAssume (state : ProgramState) : ProgramState :=
  (evalAssumeStep1 state).reallocPairs.foldl processReallocPair
    (evalAssumeStep1 state)

theorem restoreFromSym_pairs (st : ProgramState) (e : Sym × ReallocPair) :
    (restoreFromSym st e).reallocPairs = st.reallocPairs := by
  cases hm : mapLookup st.regionState e.2.ReallocatedSym with
  | none => simp only [restoreFromSym, hm]
  | some rs =>
    simp only [restoreFromSym, hm]
    by_cases hrel : rs.K = RefKind.Released
    · rw [if_pos hrel]
      cases e.2.Kind <;> rfl
    · rw [if_neg hrel]

theorem restoreFromSym_nullConstrained (st : ProgramState)
    (e : Sym × ReallocPair) :
    (restoreFromSym st e).nullConstrained = st.nullConstrained := by
  cases hm : mapLookup st.regionState e.2.ReallocatedSym with
  | none => simp only [restoreFromSym, hm]
  | some rs =>
    simp only [restoreFromSym, hm]
    by_cases hrel : rs.K = RefKind.Released
    · rw [if_pos hrel]
      cases e.2.Kind <;> rfl
    · rw [if_neg hrel]

theorem processReallocPair_nullConstrained (st : ProgramState)
    (e : Sym × ReallocPair) :
    (processReallocPair st e).nullConstrained = st.nullConstrained := by
  unfold processReallocPair
  by_cases hn : isNullB st e.1 = true
  · rw [if_pos hn]
    exact restoreFromSym_nullConstrained st e
  · rw [if_neg hn]

/-- A record absent from the region table stays absent across one
realloc-pair iteration (records are only written back at a symbol whose
record was just looked up). -/
theorem restoreFromSym_region_none (st : ProgramState)
    (e : Sym × ReallocPair) (s : Sym)
    (h : mapLookup st.regionState s = none) :
    mapLookup (restoreFromSym st e).regionState s = none := by
  cases hm : mapLookup st.regionState e.2.ReallocatedSym with
  | none => simp only [restoreFromSym, hm]; exact h
  | some rs =>
    simp only [restoreFromSym, hm]
    by_cases hrel : rs.K = RefKind.Released
    · rw [if_pos hrel]
      cases e.2.Kind with
      | OAR_ToBeFreedAfterFailure =>
        by_cases hs : s = e.2.ReallocatedSym
        · subst hs
          rw [h] at hm
          exact absurd hm (by simp)
        · show mapLookup (mapSet st.regionState e.2.ReallocatedSym
              ⟨rs.S, RefKind.Allocated, rs.Family⟩) s = none
          rw [mapLookup_set_ne _ _ _ _ hs]
          exact h
      | OAR_DoNotTrackAfterFailure =>
        by_cases hs : s = e.2.ReallocatedSym
        · subst hs
          exact mapLookup_remove_self _ _
        · show mapLookup (mapRemove st.regionState e.2.ReallocatedSym) s =
            none
          rw [mapLookup_remove_ne _ _ _ hs]
          exact h
      | OAR_FreeOnFailure => exact h
    · rw [if_neg hrel]
      exact h

theorem processReallocPair_region_none (st : ProgramState)
    (e : Sym × ReallocPair) (s : Sym)
    (h : mapLookup st.regionState s = none) :
    mapLookup (processReallocPair st e).regionState s = none := by
  unfold processReallocPair
  by_cases hn : isNullB st e.1 = true
  · rw [if_pos hn]
    exact restoreFromSym_region_none st e s h
  · rw [if_neg hn]
    exact h

/-- The record of a symbol different from the processed pair's from-symbol
is preserved across one realloc-pair iteration. -/
theorem processReallocPair_region_preserve (st : ProgramState)
    (e : Sym × ReallocPair) (f : Sym) (v : Option RefState)
    (hne : isNullB st e.1 = true → e.2.ReallocatedSym ≠ f)
    (hv : mapLookup st.regionState f = v) :
    mapLookup (processReallocPair st e).regionState f = v := by
  unfold processReallocPair
  by_cases hn : isNullB st e.1 = true
  · rw [if_pos hn]
    have hfne : e.2.ReallocatedSym ≠ f := hne hn
    cases hm : mapLookup st.regionState e.2.ReallocatedSym with
    | none => simp only [restoreFromSym, hm]; exact hv
    | some rs =>
      simp only [restoreFromSym, hm]
      by_cases hrel : rs.K = RefKind.Released
      · rw [if_pos hrel]
        cases e.2.Kind with
        | OAR_ToBeFreedAfterFailure =>
          show mapLookup (mapSet st.regionState e.2.ReallocatedSym
              ⟨rs.S, RefKind.Allocated, rs.Family⟩) f = v
          rw [mapLookup_set_ne _ _ _ _ (Ne.symm hfne)]
          exact hv
        | OAR_DoNotTrackAfterFailure =>
          show mapLookup (mapRemove st.regionState e.2.ReallocatedSym) f = v
          rw [mapLookup_remove_ne _ _ _ (Ne.symm hfne)]
          exact hv
        | OAR_FreeOnFailure => exact hv
      · rw [if_neg hrel]
        exact hv
  · rw [if_neg hn]
    exact hv

/-- Realloc-pair entries are never added by the loop body. -/
theorem processReallocPair_pairs_none (st : ProgramState)
    (e : Sym × ReallocPair) (k : Sym)
    (h : mapLookup st.reallocPairs k = none) :
    mapLookup (processReallocPair st e).reallocPairs k = none := by
  unfold processReallocPair
  by_cases hn : isNullB st e.1 = true
  · rw [if_pos hn]
    show mapLookup (mapRemove (restoreFromSym st e).reallocPairs e.1) k =
      none
    rw [restoreFromSym_pairs]
    by_cases hk : k = e.1
    · subst hk
      exact mapLookup_remove_self _ _
    · rw [mapLookup_remove_ne _ _ _ hk]
      exact h
  · rw [if_neg hn]
    exact h

/-- Processing a null-keyed pair entry removes that pair entry. -/
theorem processReallocPair_pairs_self (st : ProgramState)
    (e : Sym × ReallocPair) (hn : isNullB st e.1 = true) :
    mapLookup (processReallocPair st e).reallocPairs e.1 = none := by
  unfold processReallocPair
  rw [if_pos hn]
  show mapLookup (mapRemove (restoreFromSym st e).reallocPairs e.1) e.1 =
    none
  exact mapLookup_remove_self _ _

/-- Processing a null-keyed pair entry whose from-symbol has a `Released`
record restores the record according to the ownership policy and removes
the pair entry. -/
theorem processReallocPair_restore (st : ProgramState)
    (e : Sym × ReallocPair) (rs : RefState)
    (hn : isNullB st e.1 = true)
    (hrs : mapLookup st.regionState e.2.ReallocatedSym = some rs)
    (hrel : rs.K = RefKind.Released) :
    mapLookup (processReallocPair st e).regionState e.2.ReallocatedSym =
      (match e.2.Kind with
       | OwnershipAfterReallocKind.OAR_ToBeFreedAfterFailure =>
         some ⟨rs.S, RefKind.Allocated, rs.Family⟩
       | OwnershipAfterReallocKind.OAR_DoNotTrackAfterFailure => none
       | OwnershipAfterReallocKind.OAR_FreeOnFailure => some rs) ∧
    mapLookup (processReallocPair st e).reallocPairs e.1 = none := by
  refine ⟨?_, processReallocPair_pairs_self st e hn⟩
  unfold processReallocPair
  rw [if_pos hn]
  show mapLookup (restoreFromSym st e).regionState e.2.ReallocatedSym = _
  simp only [restoreFromSym, hrs]
  rw [if_pos hrel]
  cases e.2.Kind with
  | OAR_ToBeFreedAfterFailure => exact mapLookup_set_self _ _ _
  | OAR_DoNotTrackAfterFailure => exact mapLookup_remove_self _ _
  | OAR_FreeOnFailure => exact hrs

/-! Fold lemmas for the realloc-pair loop. -/

theorem foldl_nullConstrained (l : List (Sym × ReallocPair))
    (st : ProgramState) :
    (l.foldl processReallocPair st).nullConstrained =
      st.nullConstrained := by
  induction l generalizing st with
  | nil => rfl
  | cons y t ih =>
    rw [List.foldl_cons, ih, processReallocPair_nullConstrained]

theorem foldl_region_none (l : List (Sym × ReallocPair))
    (st : ProgramState) (s : Sym)
    (h : mapLookup st.regionState s = none) :
    mapLookup ((l.foldl processReallocPair st)).regionState s = none := by
  induction l generalizing st with
  | nil => exact h
  | cons y t ih =>
    rw [List.foldl_cons]
    exact ih _ (processReallocPair_region_none st y s h)

theorem foldl_pairs_none (l : List (Sym × ReallocPair))
    (st : ProgramState) (k : Sym)
    (h : mapLookup st.reallocPairs k = none) :
    mapLookup ((l.foldl processReallocPair st)).reallocPairs k = none := by
  induction l generalizing st with
  | nil => exact h
  | cons y t ih =>
    rw [List.foldl_cons]
    exact ih _ (processReallocPair_pairs_none st y k h)

theorem foldl_region_preserve (l : List (Sym × ReallocPair))
    (st : ProgramState) (f : Sym) (v : Option RefState) (N : List Sym)
    (hN : st.nullConstrained = N)
    (hl : ∀ e' ∈ l, N.contains e'.1 = true → e'.2.ReallocatedSym ≠ f)
    (hv : mapLookup st.regionState f = v) :
    mapLookup ((l.foldl processReallocPair st)).regionState f = v := by
  induction l generalizing st with
  | nil => exact hv
  | cons y t ih =>
    rw [List.foldl_cons]
    refine ih (processReallocPair st y) ?_ ?_ ?_
    · rw [processReallocPair_nullConstrained]
      exact hN
    · intro e' he' hc
      exact hl e' (List.mem_cons_of_mem _ he') hc
    · refine processReallocPair_region_preserve st y f v ?_ hv
      intro hnull
      refine hl y (List.mem_cons_self _ _) ?_
      rw [isNullB, hN] at hnull
      exact hnull

theorem foldl_pairs_removed (l : List (Sym × ReallocPair))
    (e : Sym × ReallocPair) (N : List Sym)
    (hnull : N.contains e.1 = true) :
    ∀ st : ProgramState, e ∈ l → st.nullConstrained = N →
      mapLookup ((l.foldl processReallocPair st)).reallocPairs e.1 =
        none := by
  induction l with
  | nil =>
    intro st hmem _
    exact absurd hmem (List.not_mem_nil _)
  | cons y t ih =>
    intro st hmem hN
    rw [List.foldl_cons]
    rcases List.mem_cons.mp hmem with rfl | hmem'
    · refine foldl_pairs_none t _ _ ?_
      refine processReallocPair_pairs_self st e ?_
      rw [isNullB, hN]
      exact hnull
    · refine ih (processReallocPair st y) hmem' ?_
      rw [processReallocPair_nullConstrained]
      exact hN

/-- C10: when a realloc-pair entry's to-symbol is definitively null but
its from-symbol is untracked or its record is in any state other than
`Released`, the iteration removes only the realloc-pair entry: the whole
region table — in particular the from-symbol's record — is untouched. -/
theorem evalAssume_restore_guard (st : ProgramState)
    (e : Sym × ReallocPair) (hnull : isNullB st e.1 = true)
    (hnotrel : ∀ rs,
      mapLookup st.regionState e.2.ReallocatedSym = some rs →
      rs.K ≠ RefKind.Released) :
    processReallocPair st e =
      { st with reallocPairs := mapRemove st.reallocPairs e.1 } := by
  have hrestore : restoreFromSym st e = st := by
    cases hm : mapLookup st.regionState e.2.ReallocatedSym with
    | none => simp only [restoreFromSym, hm]
    | some rs =>
      simp only [restoreFromSym, hm]
      rw [if_neg (hnotrel rs hm)]
  unfold processReallocPair
  rw [if_pos hnull, hrestore]

/-- A state with an `Allocated` record for symbol `2`, a realloc pair
`1 ↦ (2, DoNotTrackAfterFailure)`, and symbol `1` constrained null. -/
def c10State : ProgramState :=
  ⟨[(2, ⟨0, RefKind.Allocated, AllocationFamily.AF_Malloc⟩)],
   [(1, ⟨2, OwnershipAfterReallocKind.OAR_DoNotTrackAfterFailure⟩)],
   [], [], [1], []⟩

/-- C10 witness: the guard theorem applied at a concrete input — the
from-symbol's `Allocated` record survives, only the pair is removed. -/
theorem evalAssume_restore_guard_witness :
    processReallocPair c10State
      (1, ⟨2, OwnershipAfterReallocKind.OAR_DoNotTrackAfterFailure⟩) =
      ⟨[(2, ⟨0, RefKind.Allocated, AllocationFamily.AF_Malloc⟩)], [], [],
       [], [1], []⟩ := by
  have hnr : ∀ rs, mapLookup c10State.regionState 2 = some rs →
      rs.K ≠ RefKind.Released := by
    intro rs hm
    have heq : (⟨0, RefKind.Allocated, AllocationFamily.AF_Malloc⟩ :
        RefState) = rs := Option.some.inj hm
    rw [← heq]
    decide
  have h := evalAssume_restore_guard c10State
    (1, ⟨2, OwnershipAfterReallocKind.OAR_DoNotTrackAfterFailure⟩)
    (by decide) hnr
  rw [h]
  decide

/-- A state with an `Allocated` (not `Released`) record for symbol `2`, a
realloc pair `1 ↦ (2, DoNotTrackAfterFailure)`, and symbol `1`
constrained null. -/
def c3State : ProgramState :=
  ⟨[(2, ⟨0, RefKind.Allocated, AllocationFamily.AF_Malloc⟩)],
   [(1, ⟨2, OwnershipAfterReallocKind.OAR_DoNotTrackAfterFailure⟩)],
   [], [], [1], []⟩

/-- C3, counterexample: a realloc-pair entry with definitively-null
to-symbol and policy `DoNotTrackAfterFailure` does **not** remove the
from-symbol's record when that record is not `Released`
(MallocChecker.cpp:2907-2908 guards the restore on `isReleased`), so the
claimed unconditional policy action fails at this input. -/
theorem evalAssume_doNotTrack_not_removed :
    isNullB c3State 1 = true ∧
    mapLookup c3State.reallocPairs 1 =
      some ⟨2, OwnershipAfterReallocKind.OAR_DoNotTrackAfterFailure⟩ ∧
    mapLookup (evalAssume c3State).regionState 2 =
      some ⟨0, RefKind.Allocated, AllocationFamily.AF_Malloc⟩ := by
  decide

/-- C3 (amended): the assumption hook removes the record of every
definitively-null symbol from the region table; it removes every
realloc-pair entry whose to-symbol is definitively null; and such an
entry restores its from-symbol according to its ownership policy
**provided** the from-symbol's record (after the null-record sweep)
exists and is `Released` when the entry is processed:
`ToBeFreedAfterFailure` sets it back to `Allocated`,
`DoNotTrackAfterFailure` removes it, `FreeOnFailure` leaves it
`Released`. -/
theorem evalAssume_null_and_realloc_restore (state : ProgramState)
    (e : Sym × ReallocPair) (rs : RefState)
    (hkeys : (state.reallocPairs.map Prod.fst).Nodup)
    (hmem : e ∈ state.reallocPairs)
    (hnull : isNullB state e.1 = true)
    (huniq : ∀ e' ∈ state.reallocPairs, e' ≠ e →
      isNullB state e'.1 = true →
      e'.2.ReallocatedSym ≠ e.2.ReallocatedSym)
    (hrs : mapLookup (evalAssumeStep1 state).regionState
      e.2.ReallocatedSym = some rs)
    (hrel : rs.K = RefKind.Released) :
    (∀ s, isNullB state s = true →
      mapLookup (evalAssume state).regionState s = none) ∧
    mapLookup (evalAssume state).reallocPairs e.1 = none ∧
    (e.2.Kind = OwnershipAfterReallocKind.OAR_ToBeFreedAfterFailure →
      mapLookup (evalAssume state).regionState e.2.ReallocatedSym =
        some ⟨rs.S, RefKind.Allocated, rs.Family⟩) ∧
    (e.2.Kind = OwnershipAfterReallocKind.OAR_DoNotTrackAfterFailure →
      mapLookup (evalAssume state).regionState e.2.ReallocatedSym =
        none) ∧
    (e.2.Kind = OwnershipAfterReallocKind.OAR_FreeOnFailure →
      mapLookup (evalAssume state).regionState e.2.ReallocatedSym =
        some rs) := by
  have hpr : (evalAssumeStep1 state).reallocPairs = state.reallocPairs :=
    rfl
  refine ⟨?_, ?_, ?_⟩
  · intro s hs
    have hbase : mapLookup (evalAssumeStep1 state).regionState s =
        none := by
      have h1 := mapLookup_filter_key state.regionState
        (fun k => !(isNullB state k)) s
      simp only [hs, Bool.not_true] at h1
      simpa using h1
    exact foldl_region_none _ _ _ hbase
  · exact foldl_pairs_removed state.reallocPairs e
      state.nullConstrained hnull (evalAssumeStep1 state) hmem rfl
  · obtain ⟨l₁, l₂, hsplit⟩ := List.append_of_mem hmem
    have hkeys' := hkeys
    rw [hsplit, List.map_append, List.map_cons, List.nodup_append]
      at hkeys'
    obtain ⟨-, hnd2, hdisj⟩ := hkeys'
    have hd2 : e.1 ∉ l₂.map Prod.fst := (List.nodup_cons.mp hnd2).1
    have hd1 : e.1 ∉ l₁.map Prod.fst := by
      intro hin
      exact hdisj hin (List.mem_cons_self _ _)
    have hl₁ : ∀ e' ∈ l₁, state.nullConstrained.contains e'.1 = true →
        e'.2.ReallocatedSym ≠ e.2.ReallocatedSym := by
      intro e' he' hc
      refine huniq e' ?_ ?_ hc
      · rw [hsplit]
        exact List.mem_append_left _ he'
      · intro heq
        apply hd1
        rw [← heq]
        exact List.mem_map_of_mem Prod.fst he'
    have hl₂ : ∀ e' ∈ l₂, state.nullConstrained.contains e'.1 = true →
        e'.2.ReallocatedSym ≠ e.2.ReallocatedSym := by
      intro e' he' hc
      refine huniq e' ?_ ?_ hc
      · rw [hsplit]
        exact List.mem_append_right _ (List.mem_cons_of_mem _ he')
      · intro heq
        apply hd2
        rw [← heq]
        exact List.mem_map_of_mem Prod.fst he'
    have hev : evalAssume state =
        l₂.foldl processReallocPair (processReallocPair
          (l₁.foldl processReallocPair (evalAssumeStep1 state)) e) := by
      unfold evalAssume
      rw [hpr, hsplit, List.foldl_append, List.foldl_cons]
    have hN₁ : (l₁.foldl processReallocPair
        (evalAssumeStep1 state)).nullConstrained =
        state.nullConstrained := foldl_nullConstrained _ _
    have hrs₁ : mapLookup (l₁.foldl processReallocPair
        (evalAssumeStep1 state)).regionState e.2.ReallocatedSym =
        some rs :=
      foldl_region_preserve l₁ _ _ _ state.nullConstrained rfl hl₁ hrs
    have hnull₁ : isNullB (l₁.foldl processReallocPair
        (evalAssumeStep1 state)) e.1 = true := by
      rw [isNullB, hN₁]
      exact hnull
    have p2 := processReallocPair_restore _ e rs hnull₁ hrs₁ hrel
    have hN₂ : (processReallocPair (l₁.foldl processReallocPair
        (evalAssumeStep1 state)) e).nullConstrained =
        state.nullConstrained := by
      rw [processReallocPair_nullConstrained]
      exact hN₁
    refine ⟨?_, ?_, ?_⟩ <;> intro hkind
    · have hv := p2.1
      rw [hkind] at hv
      rw [hev]
      exact foldl_region_preserve l₂ _ _ _ state.nullConstrained hN₂
        hl₂ hv
    · have hv := p2.1
      rw [hkind] at hv
      rw [hev]
      exact foldl_region_preserve l₂ _ _ _ state.nullConstrained hN₂
        hl₂ hv
    · have hv := p2.1
      rw [hkind] at hv
      rw [hev]
      exact foldl_region_preserve l₂ _ _ _ state.nullConstrained hN₂
        hl₂ hv

/-- A state with a `Released` record for symbol `2`, a realloc pair
`1 ↦ (2, ToBeFreedAfterFailure)`, and symbol `1` constrained null. -/
def c3wState : ProgramState :=
  ⟨[(2, ⟨0, RefKind.Released, AllocationFamily.AF_Malloc⟩)],
   [(1, ⟨2, OwnershipAfterReallocKind.OAR_ToBeFreedAfterFailure⟩)],
   [], [], [1], []⟩

/-- C3 witness: the restore theorem applied at a concrete input — the
failed realloc restores the released from-symbol to `Allocated` and
removes the pair. -/
theorem evalAssume_null_and_realloc_restore_witness :
    mapLookup (evalAssume c3wState).reallocPairs 1 = none ∧
    mapLookup (evalAssume c3wState).regionState 2 =
      some ⟨0, RefKind.Allocated, AllocationFamily.AF_Malloc⟩ := by
  have huniq : ∀ e' ∈ c3wState.reallocPairs,
      e' ≠ ((1, ⟨2, OwnershipAfterReallocKind.OAR_ToBeFreedAfterFailure⟩) :
        Sym × ReallocPair) →
      isNullB c3wState e'.1 = true → e'.2.ReallocatedSym ≠ 2 := by
    intro e' he' hne _
    exact absurd (List.mem_singleton.mp he') hne
  have h := evalAssume_null_and_realloc_restore c3wState
    (1, ⟨2, OwnershipAfterReallocKind.OAR_ToBeFreedAfterFailure⟩)
    ⟨0, RefKind.Released, AllocationFamily.AF_Malloc⟩
    (by decide) (by decide) (by decide) huniq (by decide) rfl
  exact ⟨h.2.1, h.2.2.1 rfl⟩

/-! ## Kernel malloc (`performKernelMalloc`, MallocChecker.cpp:966) -/

/-- The operating systems distinguished by `performKernelMalloc`
(`llvm::Triple::OSType`); every other platform falls into `otherOS`. -/
inductive OSType
  | freebsd
  | netbsd
  | openbsd
  | linux
  | otherOS
deriving DecidableEq, Repr

/-- The platform zero-flag constant (`KernelZeroFlagVal`,
MallocChecker.cpp:987-1003): `M_ZERO` on the BSDs, `__GFP_ZERO` on
Linux, unknown elsewhere. -/
def kernelZeroFlagVal : OSType → Option Nat
  | OSType.freebsd => some 0x0100
  | OSType.netbsd => some 0x0002
  | OSType.openbsd => some 0x0008
  | OSType.linux => some 0x8000
  | OSType.otherOS => none

/-- The last (flags) argument of the call as seen by the modeler: a
concrete non-loc integer; a symbolic value, summarized by the engine's
feasibility answers for assuming the masked flags non-zero / zero; a
value that is not a `NonLoc` (MallocChecker.cpp:1014); or one whose
masking came out unknown or undefined (MallocChecker.cpp:1027). -/
inductive KMFlags
  | concrete (n : Nat)
  | symbolicMasked (feasNonZero feasZero : Bool)
  | notNonLoc
  | maskedUnknown
deriving DecidableEq, Repr

/-- Whether the flags can be masked at all. -/
def flagsUsable : KMFlags → Bool
  | KMFlags.notNonLoc => false
  | KMFlags.maskedUnknown => false
  | _ => true

/-- Whether the flags bit-ANDed with the zero-flag constant are provably
non-zero on the path (`TrueState && !FalseState`,
MallocChecker.cpp:1032-1036): decided by the concrete bitwise AND for a
concrete value, and by the engine's feasibility answers for a symbolic
one. -/
def maskedProvablyNonZero (zf : Nat) : KMFlags → Bool
  | KMFlags.concrete n => decide (n &&& zf ≠ 0)
  | KMFlags.symbolicMasked feasNonZero feasZero => feasNonZero && !feasZero
  | KMFlags.notNonLoc => false
  | KMFlags.maskedUnknown => false

/-- `performKernelMalloc` (MallocChecker.cpp:966): `none` models
`Optional::None` (the caller falls back to ordinary malloc); otherwise
returns the (possibly null) state of `MallocMemAux` with **zero**
initialization. -/
def performKernelMalloc (os : OSType) (numArgs : Nat) (flags : KMFlags)
    (state : ProgramState) (retSym : Sym) (stmt : Stmt)
    (retTypeIsPointer : Bool) :
    Option (Option (ProgramState × InitVal)) :=
  match kernelZeroFlagVal os with
  | none => none
  | some zf =>
    if numArgs < 2 then none
    else if flagsUsable flags = false then none
    else if maskedProvablyNonZero zf flags = true then
      some (MallocMemAux state retSym AllocationFamily.AF_Malloc stmt
        retTypeIsPointer InitVal.zero)
    else none

/-- The triple-argument `malloc` / flags-carrying `kmalloc` call path
(`checkPostStmt`, MallocChecker.cpp:1083-1100): try
`performKernelMalloc`; on `None` fall back to ordinary malloc modeling
with **undefined** initialization. -/
def mallocPostKernel (os : OSType) (numArgs : Nat) (flags : KMFlags)
    (state : ProgramState) (retSym : Sym) (stmt : Stmt)
    (retTypeIsPointer : Bool) : Option (ProgramState × InitVal) :=
  match performKernelMalloc os numArgs flags state retSym stmt
      retTypeIsPointer with
  | some r => r
  | none => MallocMemAux state retSym AllocationFamily.AF_Malloc stmt
      retTypeIsPointer InitVal.undef

theorem mallocMemAux_init (state : ProgramState) (retSym : Sym)
    (family : AllocationFamily) (stmt : Stmt) (retTypeIsPointer : Bool)
    (init : InitVal) (st' : ProgramState) (iv : InitVal)
    (h : MallocMemAux state retSym family stmt retTypeIsPointer init =
      some (st', iv)) : iv = init := by
  unfold MallocMemAux at h
  by_cases hr : retTypeIsPointer = false
  · rw [if_pos hr] at h
    exact absurd h (by simp)
  · rw [if_neg hr] at h
    exact (congrArg Prod.snd (Option.some.inj h)).symm

/-- C7: for a triple-argument malloc / flags-carrying kmalloc call that
produces a state, the allocated region is zero-initialized exactly when
the platform has a zero-flag constant (`0x0100` FreeBSD, `0x0002`
NetBSD, `0x0008` OpenBSD, `0x8000` Linux), the call has at least two
arguments, the flags value is usable, and the flags bit-ANDed with the
constant are provably non-zero on the path; in every other case —
including every platform outside the table — the modeling falls back to
ordinary malloc with undefined initialization. -/
theorem performKernelMalloc_zero_init_iff (os : OSType) (numArgs : Nat)
    (flags : KMFlags) (state : ProgramState) (retSym : Sym) (stmt : Stmt)
    (retTypeIsPointer : Bool) (st' : ProgramState) (iv : InitVal)
    (h : mallocPostKernel os numArgs flags state retSym stmt
      retTypeIsPointer = some (st', iv)) :
    (iv = InitVal.zero ↔ ∃ zf, kernelZeroFlagVal os = some zf ∧
      2 ≤ numArgs ∧ flagsUsable flags = true ∧
      maskedProvablyNonZero zf flags = true) ∧
    (iv = InitVal.zero ∨ iv = InitVal.undef) ∧
    kernelZeroFlagVal OSType.freebsd = some 0x0100 ∧
    kernelZeroFlagVal OSType.netbsd = some 0x0002 ∧
    kernelZeroFlagVal OSType.openbsd = some 0x0008 ∧
    kernelZeroFlagVal OSType.linux = some 0x8000 ∧
    kernelZeroFlagVal OSType.otherOS = none := by
  by_cases hc : ∃ zf, kernelZeroFlagVal os = some zf ∧ 2 ≤ numArgs ∧
      flagsUsable flags = true ∧ maskedProvablyNonZero zf flags = true
  · obtain ⟨zf, h1, h2, h3, h4⟩ := hc
    have hpk : performKernelMalloc os numArgs flags state retSym stmt
        retTypeIsPointer = some (MallocMemAux state retSym
          AllocationFamily.AF_Malloc stmt retTypeIsPointer
          InitVal.zero) := by
      simp only [performKernelMalloc, h1]
      rw [if_neg (by omega : ¬numArgs < 2)]
      rw [if_neg (by simp [h3])]
      rw [if_pos h4]
    unfold mallocPostKernel at h
    rw [hpk] at h
    have hiv : iv = InitVal.zero :=
      mallocMemAux_init _ _ _ _ _ _ _ _ h
    subst hiv
    exact ⟨iff_of_true rfl ⟨zf, h1, h2, h3, h4⟩, Or.inl rfl, rfl, rfl,
      rfl, rfl, rfl⟩
  · have hpk : performKernelMalloc os numArgs flags state retSym stmt
        retTypeIsPointer = none := by
      cases hzf : kernelZeroFlagVal os with
      | none => simp only [performKernelMalloc, hzf]
      | some zf =>
        simp only [performKernelMalloc, hzf]
        by_cases hn : numArgs < 2
        · rw [if_pos hn]
        · rw [if_neg hn]
          by_cases hu : flagsUsable flags = false
          · rw [if_pos hu]
          · rw [if_neg hu]
            have h4 : maskedProvablyNonZero zf flags = false := by
              by_contra hc4
              simp only [Bool.not_eq_false] at hc4
              refine hc ⟨zf, hzf, by omega, ?_, hc4⟩
              simpa using hu
            rw [if_neg (by simp [h4])]
    unfold mallocPostKernel at h
    rw [hpk] at h
    have hiv : iv = InitVal.undef :=
      mallocMemAux_init _ _ _ _ _ _ _ _ h
    subst hiv
    exact ⟨iff_of_false (by simp) hc, Or.inr rfl, rfl, rfl, rfl, rfl, rfl⟩

/-- The state produced by modeling `kmalloc(size, __GFP_ZERO)` on Linux
on the empty state with fresh symbol `9`. -/
def c7Result : ProgramState :=
  ⟨[(9, ⟨2, RefKind.Allocated, AllocationFamily.AF_Malloc⟩)], [], [], [],
   [], []⟩

/-- C7 witness: the zero-init characterization applied at a concrete
call — `__GFP_ZERO` set on Linux gives a zero-initialized allocation. -/
theorem performKernelMalloc_zero_init_iff_witness :
    mallocPostKernel OSType.linux 3 (KMFlags.concrete 0x8000) emptyState
      9 2 true = some (c7Result, InitVal.zero) ∧
    (InitVal.zero = InitVal.zero ∨ InitVal.zero = InitVal.undef) := by
  have hres : mallocPostKernel OSType.linux 3 (KMFlags.concrete 0x8000)
      emptyState 9 2 true = some (c7Result, InitVal.zero) := by decide
  exact ⟨hres, (performKernelMalloc_zero_init_iff OSType.linux 3
    (KMFlags.concrete 0x8000) emptyState 9 2 true c7Result InitVal.zero
    hres).2.1⟩

/-! ## Pointer escape (`checkPointerEscapeAux`, MallocChecker.cpp:3116) -/

/-- `PointerEscapeKind` of the host engine. -/
inductive PointerEscapeKind
  | PSK_EscapeOnBind
  | PSK_DirectEscapeOnCall
  | PSK_IndirectEscapeOnCall
  | PSK_EscapeOther
deriving DecidableEq, Repr

/-- `checkIfNewOrNewArrayFamily` (MallocChecker.cpp:3111). -/
def checkIfNewOrNewArrayFamily (rs : RefState) : Bool :=
  rs.Family = AllocationFamily.AF_CXXNewArray ∨
    rs.Family = AllocationFamily.AF_CXXNew

/-- `EscapingSymbol && EscapingSymbol != sym` (MallocChecker.cpp:3135). -/
def skipForEscaping (escapingSymbol : Option Sym) (sym : Sym) : Bool :=
  match escapingSymbol with
  | some e => decide (e ≠ sym)
  | none => false

/-- The loop body of `checkPointerEscapeAux`
(MallocChecker.cpp:3130-3142): skip symbols filtered out by a designated
escaping symbol; transition `Allocated` / `AllocatedOfSizeZero` records
to `Escaped`, for const-pointer escapes only in the `CXXNew` /
`CXXNewArray` families. -/
def escapeStep (escapingSymbol : Option Sym) (isConstPointerEscape : Bool)
    (st : ProgramState) (sym : Sym) : ProgramState :=
  if skipForEscaping escapingSymbol sym = true then st
  else
    match mapLookup st.regionState sym with
    | some rs =>
      if (rs.K = RefKind.Allocated ∨ rs.K = RefKind.AllocatedOfSizeZero) ∧
          (isConstPointerEscape = false ∨
            checkIfNewOrNewArrayFamily rs = true) then
        { st with
            regionState := mapSet st.regionState sym
              ⟨rs.S, RefKind.Escaped, rs.Family⟩ }
      else st
    | none => st

/-- `checkPointerEscapeAux` (MallocChecker.cpp:3116).  The outcome of
`mayFreeAnyEscapedMemoryOrIsModeledExplicitly` — a property of the
`CallEvent` — is supplied as the `mayFree` / `escapingSymbol`
parameters. -/
def checkPointerEscapeAux (state : ProgramState) (escaped : List Sym)
    (kind : PointerEscapeKind) (mayFree : Bool)
    (escapingSymbol : Option Sym) (isConstPointerEscape : Bool) :
    ProgramState :=
  if kind = PointerEscapeKind.PSK_DirectEscapeOnCall ∧ mayFree = false ∧
      escapingSymbol = none then state
  else escaped.foldl (escapeStep escapingSymbol isConstPointerEscape) state

theorem escapeStep_eq_skip (escapingSymbol : Option Sym) (isConst : Bool)
    (st : ProgramState) (y : Sym)
    (hskip : skipForEscaping escapingSymbol y = true) :
    escapeStep escapingSymbol isConst st y = st := by
  unfold escapeStep
  rw [if_pos hskip]

theorem escapeStep_eq_none (escapingSymbol : Option Sym) (isConst : Bool)
    (st : ProgramState) (y : Sym)
    (hskip : skipForEscaping escapingSymbol y = false)
    (hm : mapLookup st.regionState y = none) :
    escapeStep escapingSymbol isConst st y = st := by
  unfold escapeStep
  rw [if_neg (by simp [hskip]), hm]

theorem escapeStep_eq_some (escapingSymbol : Option Sym) (isConst : Bool)
    (st : ProgramState) (y : Sym) (ry : RefState)
    (hskip : skipForEscaping escapingSymbol y = false)
    (hm : mapLookup st.regionState y = some ry) :
    escapeStep escapingSymbol isConst st y =
      if (ry.K = RefKind.Allocated ∨
          ry.K = RefKind.AllocatedOfSizeZero) ∧
          (isConst = false ∨ checkIfNewOrNewArrayFamily ry = true) then
        { st with
            regionState := mapSet st.regionState y
              ⟨ry.S, RefKind.Escaped, ry.Family⟩ }
      else st := by
  unfold escapeStep
  rw [if_neg (by simp [hskip]), hm]

theorem escapeStep_other (escapingSymbol : Option Sym) (isConst : Bool)
    (st : ProgramState) (y s : Sym) (v : Option RefState) (hne : y ≠ s)
    (hv : mapLookup st.regionState s = v) :
    mapLookup (escapeStep escapingSymbol isConst st y).regionState s =
      v := by
  cases hskip : skipForEscaping escapingSymbol y with
  | true =>
    rw [escapeStep_eq_skip _ _ _ _ hskip]
    exact hv
  | false =>
    cases hm : mapLookup st.regionState y with
    | none =>
      rw [escapeStep_eq_none _ _ _ _ hskip hm]
      exact hv
    | some ry =>
      rw [escapeStep_eq_some _ _ _ _ _ hskip hm]
      by_cases hcond : (ry.K = RefKind.Allocated ∨
          ry.K = RefKind.AllocatedOfSizeZero) ∧
          (isConst = false ∨ checkIfNewOrNewArrayFamily ry = true)
      · rw [if_pos hcond]
        show mapLookup (mapSet st.regionState y
          ⟨ry.S, RefKind.Escaped, ry.Family⟩) s = v
        rw [mapLookup_set_ne _ _ _ _ (Ne.symm hne)]
        exact hv
      · rw [if_neg hcond]
        exact hv

theorem escapeStep_escaped_stable (escapingSymbol : Option Sym)
    (isConst : Bool) (st : ProgramState) (y sym : Sym) (s0 : Stmt)
    (f0 : AllocationFamily)
    (h : mapLookup st.regionState sym =
      some ⟨s0, RefKind.Escaped, f0⟩) :
    mapLookup (escapeStep escapingSymbol isConst st y).regionState sym =
      some ⟨s0, RefKind.Escaped, f0⟩ := by
  by_cases hy : y = sym
  · subst hy
    cases hskip : skipForEscaping escapingSymbol y with
    | true =>
      rw [escapeStep_eq_skip _ _ _ _ hskip]
      exact h
    | false =>
      rw [escapeStep_eq_some _ _ _ _ _ hskip h, if_neg (by simp)]
      exact h
  · exact escapeStep_other _ _ _ _ _ _ hy h

theorem escapeStep_nochange (escapingSymbol : Option Sym) (isConst : Bool)
    (st : ProgramState) (y sym : Sym) (rs : RefState)
    (h : mapLookup st.regionState sym = some rs)
    (hcond : ¬((rs.K = RefKind.Allocated ∨
      rs.K = RefKind.AllocatedOfSizeZero) ∧
      (isConst = false ∨ checkIfNewOrNewArrayFamily rs = true))) :
    mapLookup (escapeStep escapingSymbol isConst st y).regionState sym =
      some rs := by
  by_cases hy : y = sym
  · subst hy
    cases hskip : skipForEscaping escapingSymbol y with
    | true =>
      rw [escapeStep_eq_skip _ _ _ _ hskip]
      exact h
    | false =>
      rw [escapeStep_eq_some _ _ _ _ _ hskip h, if_neg hcond]
      exact h
  · exact escapeStep_other _ _ _ _ _ _ hy h

theorem foldl_escaped_stable (escapingSymbol : Option Sym)
    (isConst : Bool) (l : List Sym) (st : ProgramState) (sym : Sym)
    (s0 : Stmt) (f0 : AllocationFamily)
    (h : mapLookup st.regionState sym =
      some ⟨s0, RefKind.Escaped, f0⟩) :
    mapLookup ((l.foldl (escapeStep escapingSymbol isConst)
      st)).regionState sym = some ⟨s0, RefKind.Escaped, f0⟩ := by
  induction l generalizing st with
  | nil => exact h
  | cons y t ih =>
    rw [List.foldl_cons]
    exact ih _ (escapeStep_escaped_stable _ _ _ _ _ _ _ h)

theorem foldl_escape_nochange (escapingSymbol : Option Sym)
    (isConst : Bool) (l : List Sym) (st : ProgramState) (sym : Sym)
    (rs : RefState) (h : mapLookup st.regionState sym = some rs)
    (hcond : ¬((rs.K = RefKind.Allocated ∨
      rs.K = RefKind.AllocatedOfSizeZero) ∧
      (isConst = false ∨ checkIfNewOrNewArrayFamily rs = true))) :
    mapLookup ((l.foldl (escapeStep escapingSymbol isConst)
      st)).regionState sym = some rs := by
  induction l generalizing st with
  | nil => exact h
  | cons y t ih =>
    rw [List.foldl_cons]
    exact ih _ (escapeStep_nochange _ _ _ _ _ _ h hcond)

theorem skipForEscaping_allowed (escapingSymbol : Option Sym) (sym : Sym)
    (hallow : escapingSymbol = none ∨ escapingSymbol = some sym) :
    skipForEscaping escapingSymbol sym = false := by
  rcases hallow with rfl | rfl
  · rfl
  · simp [skipForEscaping]

theorem foldl_escape_transition (escapingSymbol : Option Sym)
    (isConst : Bool) (l : List Sym) (sym : Sym) (rs : RefState)
    (hallow : escapingSymbol = none ∨ escapingSymbol = some sym)
    (hcond : (rs.K = RefKind.Allocated ∨
      rs.K = RefKind.AllocatedOfSizeZero) ∧
      (isConst = false ∨ checkIfNewOrNewArrayFamily rs = true)) :
    ∀ st : ProgramState, sym ∈ l →
      mapLookup st.regionState sym = some rs →
      mapLookup ((l.foldl (escapeStep escapingSymbol isConst)
        st)).regionState sym =
        some ⟨rs.S, RefKind.Escaped, rs.Family⟩ := by
  induction l with
  | nil =>
    intro st hmem _
    exact absurd hmem (List.not_mem_nil _)
  | cons y t ih =>
    intro st hmem h
    rw [List.foldl_cons]
    rcases List.mem_cons.mp hmem with rfl | hmem'
    · refine foldl_escaped_stable _ _ _ _ _ _ _ ?_
      rw [escapeStep_eq_some _ _ _ _ _
        (skipForEscaping_allowed _ _ hallow) h, if_pos hcond]
      exact mapLookup_set_self _ _ _
    · by_cases hy : y = sym
      · subst hy
        rw [escapeStep_eq_some _ _ _ _ _
          (skipForEscaping_allowed _ _ hallow) h, if_pos hcond]
        refine foldl_escaped_stable _ _ _ _ _ _ _ ?_
        exact mapLookup_set_self _ _ _
      · exact ih _ hmem' (escapeStep_other _ _ _ _ _ _ hy h)

/-- A state tracking symbol `7` as an `Allocated` malloc record. -/
def c8State : ProgramState :=
  ⟨[(7, ⟨0, RefKind.Allocated, AllocationFamily.AF_Malloc⟩)], [], [], [],
   [], []⟩

/-- C8, counterexample: an escaped `Allocated` symbol is **not**
transitioned to `Escaped` when the handler takes its keep-tracking early
exit (a direct escape on a call that cannot free escaped memory, with no
designated escaping symbol; MallocChecker.cpp:3123-3128), so the claim
as stated fails at this input. -/
theorem pointerEscape_early_exit_no_transition :
    mapLookup c8State.regionState 7 =
      some ⟨0, RefKind.Allocated, AllocationFamily.AF_Malloc⟩ ∧
    (7 : Sym) ∈ ([7] : List Sym) ∧
    mapLookup (checkPointerEscapeAux c8State [7]
      PointerEscapeKind.PSK_DirectEscapeOnCall false none
      false).regionState 7 =
      some ⟨0, RefKind.Allocated, AllocationFamily.AF_Malloc⟩ := by
  refine ⟨by decide, by decide, ?_⟩
  unfold checkPointerEscapeAux
  rw [if_pos ⟨rfl, rfl, rfl⟩]
  decide

/-- C8 (amended): provided the pointer-escape handler does not take its
keep-tracking early exit, and restricted to symbols not excluded by a
designated escaping symbol: an escaped symbol whose record is
`Allocated` or `AllocatedOfSizeZero` is transitioned to `Escaped` by a
regular escape, and by a const-pointer escape only when its family is
`CXXNew` or `CXXNewArray`; a record in any other state, or (for const
escapes) of any other family, is left unchanged. -/
theorem pointerEscape_transition_characterization (state : ProgramState)
    (escaped : List Sym) (kind : PointerEscapeKind) (mayFree : Bool)
    (escapingSymbol : Option Sym) (isConstPointerEscape : Bool)
    (sym : Sym) (rs : RefState)
    (hexit : ¬(kind = PointerEscapeKind.PSK_DirectEscapeOnCall ∧
      mayFree = false ∧ escapingSymbol = none))
    (hallow : escapingSymbol = none ∨ escapingSymbol = some sym)
    (hmem : sym ∈ escaped)
    (hrec : mapLookup state.regionState sym = some rs) :
    (((rs.K = RefKind.Allocated ∨ rs.K = RefKind.AllocatedOfSizeZero) ∧
      (isConstPointerEscape = false ∨
        checkIfNewOrNewArrayFamily rs = true)) →
      mapLookup (checkPointerEscapeAux state escaped kind mayFree
        escapingSymbol isConstPointerEscape).regionState sym =
        some ⟨rs.S, RefKind.Escaped, rs.Family⟩) ∧
    ((¬((rs.K = RefKind.Allocated ∨
        rs.K = RefKind.AllocatedOfSizeZero) ∧
      (isConstPointerEscape = false ∨
        checkIfNewOrNewArrayFamily rs = true))) →
      mapLookup (checkPointerEscapeAux state escaped kind mayFree
        escapingSymbol isConstPointerEscape).regionState sym =
        some rs) := by
  unfold checkPointerEscapeAux
  rw [if_neg hexit]
  constructor
  · intro hcond
    exact foldl_escape_transition escapingSymbol isConstPointerEscape
      escaped sym rs hallow hcond state hmem hrec
  · intro hcond
    exact foldl_escape_nochange escapingSymbol isConstPointerEscape
      escaped state sym rs hrec hcond

/-- C8 witness: the transition characterization applied at a concrete
input — an opaque-call escape moves the `Allocated` malloc record to
`Escaped`. -/
theorem pointerEscape_transition_characterization_witness :
    mapLookup (checkPointerEscapeAux c8State [7]
      PointerEscapeKind.PSK_EscapeOther true none false).regionState 7 =
      some ⟨0, RefKind.Escaped, AllocationFamily.AF_Malloc⟩ := by
  have h := pointerEscape_transition_characterization c8State [7]
    PointerEscapeKind.PSK_EscapeOther true none false 7
    ⟨0, RefKind.Allocated, AllocationFamily.AF_Malloc⟩
    (by simp) (Or.inl rfl) (by decide) (by decide)
  exact h.1 (by decide)

/-! ## Zero-allocation check (`ProcessZeroAllocCheck`,
MallocChecker.cpp:1230) -/

/-- The evaluated size argument, once known to be a `DefinedSVal`: a
concrete value, or a symbolic one whose `== 0` constraint status lives
in the state's recorded assumptions. -/
inductive SizeVal
  | concrete (n : Nat)
  | sym (s : Sym)
deriving DecidableEq, Repr

/-- Whether the path already records the assumption `s == 0` with truth
value `b`. -/
def isConstrained (st : ProgramState) (s : Sym) (b : Bool) : Bool :=
  st.assumptions.contains (s, b)

/-- `State->assume(evalEQ(size, 0))` (MallocChecker.cpp:1266-1267): the
engine's path split on `size == 0`, returning the feasible branch
states `(TrueState, FalseState)`. -/
def assumeSizeZero (st : ProgramState) (sz : SizeVal) :
    Option ProgramState × Option ProgramState :=
  match sz with
  | SizeVal.concrete n =>
    (if n = 0 then some st else none, if n ≠ 0 then some st else none)
  | SizeVal.sym s =>
    if isConstrained st s true = true then (some st, none)
    else if isConstrained st s false = true then (none, some st)
    else
      (some { st with assumptions := (s, true) :: st.assumptions },
       some { st with assumptions := (s, false) :: st.assumptions })

/-- `ProcessZeroAllocCheck` (MallocChecker.cpp:1230), from the point
where the size argument evaluated to a defined value (`DefArgVal`);
`retValSym` is `RetVal->getAsLocSymbol()`.  On the provably-zero side an
`Allocated` record is re-stated `AllocatedOfSizeZero`, an untracked
symbol is added to the zero-size set; otherwise the `FalseState` (the
size-non-zero branch) is returned. -/
def ProcessZeroAllocCheck (state : ProgramState) (sizeArg : SizeVal)
    (retValSym : Option Sym) : ProgramState :=
  match assumeSizeZero state sizeArg with
  | (some tSt, none) =>
    match retValSym with
    | none => state
    | some sym =>
      match mapLookup state.regionState sym with
      | some rs =>
        if rs.K = RefKind.Allocated then
          { tSt with
              regionState := mapSet tSt.regionState sym
                ⟨rs.S, RefKind.AllocatedOfSizeZero, rs.Family⟩ }
        else state
      | none =>
        { tSt with
            reallocSizeZeroSymbols :=
              setAdd tSt.reallocSizeZeroSymbols sym }
  | (_, some fSt) => fSt
  | (_, none) => state

/-- C9: when the size argument is a defined value that is not provably
zero, the zero-allocation check returns the branch state on which the
size is constrained non-zero (the `size == 0` branch is dropped); when
the size is provably zero, a region-table record is re-stated to
`AllocatedOfSizeZero` only if it is currently `Allocated`, and a record
in any other state is left unchanged (the original state is returned). -/
theorem processZeroAllocCheck_behavior (state : ProgramState)
    (sizeArg : SizeVal) (retValSym : Option Sym) :
    (∀ tOpt fSt, assumeSizeZero state sizeArg = (tOpt, some fSt) →
      ProcessZeroAllocCheck state sizeArg retValSym = fSt) ∧
    (∀ s, sizeArg = SizeVal.sym s → isConstrained state s true = false →
      isConstrained state s false = false →
      isConstrained (ProcessZeroAllocCheck state sizeArg retValSym) s
        false = true) ∧
    (∀ tSt sym rs, assumeSizeZero state sizeArg = (some tSt, none) →
      retValSym = some sym →
      mapLookup state.regionState sym = some rs →
      (rs.K = RefKind.Allocated →
        mapLookup (ProcessZeroAllocCheck state sizeArg
          retValSym).regionState sym =
          some ⟨rs.S, RefKind.AllocatedOfSizeZero, rs.Family⟩) ∧
      (rs.K ≠ RefKind.Allocated →
        ProcessZeroAllocCheck state sizeArg retValSym = state)) := by
  refine ⟨?_, ?_, ?_⟩
  · intro tOpt fSt h
    cases tOpt with
    | none => simp only [ProcessZeroAllocCheck, h]
    | some tSt => simp only [ProcessZeroAllocCheck, h]
  · intro s hsz h1 h0
    subst hsz
    have hassume : assumeSizeZero state (SizeVal.sym s) =
        (some { state with
            assumptions := (s, true) :: state.assumptions },
         some { state with
            assumptions := (s, false) :: state.assumptions }) := by
      simp only [assumeSizeZero]
      rw [if_neg (by simp [h1]), if_neg (by simp [h0])]
    simp only [ProcessZeroAllocCheck, hassume]
    simp [isConstrained]
  · intro tSt sym rs h hr hm
    subst hr
    simp only [ProcessZeroAllocCheck, h, hm]
    constructor
    · intro hk
      rw [if_pos hk]
      exact mapLookup_set_self _ _ _
    · intro hk
      rw [if_neg hk]

/-- A state tracking symbol `3` as an `Allocated` malloc record. -/
def c9State : ProgramState :=
  ⟨[(3, ⟨0, RefKind.Allocated, AllocationFamily.AF_Malloc⟩)], [], [], [],
   [], []⟩

/-- C9 witness: the behavior theorem applied at concrete inputs — a
non-zero concrete size returns the non-zero branch unchanged, and a
provably-zero size re-states the `Allocated` record. -/
theorem processZeroAllocCheck_behavior_witness :
    ProcessZeroAllocCheck emptyState (SizeVal.concrete 5) none =
      emptyState ∧
    mapLookup (ProcessZeroAllocCheck c9State (SizeVal.concrete 0)
      (some 3)).regionState 3 =
      some ⟨0, RefKind.AllocatedOfSizeZero, AllocationFamily.AF_Malloc⟩ := by
  refine ⟨?_, ?_⟩
  · exact (processZeroAllocCheck_behavior emptyState (SizeVal.concrete 5)
      none).1 none emptyState (by decide)
  · exact ((processZeroAllocCheck_behavior c9State (SizeVal.concrete 0)
      (some 3)).2.2 c9State 3
      ⟨0, RefKind.Allocated, AllocationFamily.AF_Malloc⟩ (by decide) rfl
      (by decide)).1 rfl

end MallocChecker

